import Mathlib

/-!
Verification of `wg`: a `sync.WaitGroup` wrapper with panic recovery

Shallow embedding of `wg.go`.

* Go values that can be carried by a panic (`interface{}`) are modelled by `Value`,
  error values by `GoError` (an error is characterised by its `Error()` text and by what
  `Unwrap()` returns).
* The pending count of the embedded `sync.WaitGroup` is the 32-bit signed integer the
  standard library keeps: `Add` stores the sum wrapped to 32 bits, then panics if the stored
  count is negative. So `Add(1)` on a count of 2147483647 wraps to -2147483648 and panics.
* `defer` / `panic` / `recover` are modelled by a call frame (`Frame`) holding the body still
  to call, the stack of deferred calls, and the panic currently unwinding the frame.
  One `Frame.step` is one atomic action of the goroutine executing the frame.
* Goroutines are modelled by an interleaving of frame steps chosen by a schedule (`exec`).
-/

namespace Wg

/-! ## Values, errors, formatting -/

/-- Error values: `errorString` is what `errors.New` (and `fmt.Errorf` without `%w`)
returns, `wrapError` is what `fmt.Errorf` returns for a format with one `%w`. -/
inductive GoError where
  | errorString (s : String)
  | wrapError (msg : String) (err : GoError)
  deriving DecidableEq, Repr

/-- The method `Error()`. -/
def GoError.Error : GoError → String
  | .errorString s => s
  | .wrapError msg _ => msg

/-- The function `errors.Unwrap`. -/
def GoError.Unwrap : GoError → Option GoError
  | .errorString _ => none
  | .wrapError _ err => some err

/-- The function `errors.Is`: walk the `Unwrap` chain looking for `target`. -/
def errorsIs : GoError → GoError → Bool
  | .errorString s, target => decide (GoError.errorString s = target)
  | .wrapError msg err, target =>
    if GoError.wrapError msg err = target then true else errorsIs err target

/-- A dynamically typed Go value (`interface{}`), as carried by a panic and returned by
`recover()`. `other text` is any non-nil value that is neither a string nor an error,
identified by its rendering under the verb `%v`. -/
inductive Value where
  | nil
  | str (s : String)
  | err (e : GoError)
  | other (text : String)
  deriving DecidableEq, Repr

/-- The type assertion `r.(error)`. -/
def Value.asError : Value → Option GoError
  | .err e => some e
  | _ => none

/-- Default text rendering of a value (verb `%v`; for strings and errors also `%s`, `%w`). -/
def Value.format : Value → String
  | .nil => "<nil>"
  | .str s => s
  | .err e => e.Error
  | .other text => text

/-- A piece of a format string: literal text or a verb such as `%v`. -/
inductive Directive where
  | lit (s : String)
  | verb (c : Char)
  deriving DecidableEq, Repr

/-- The function `fmt.Sprintf` on the verbs `%s`, `%v`, `%w`. -/
def Sprintf : List Directive → List Value → String
  | [], _ => ""
  | .lit s :: ds, args => s ++ Sprintf ds args
  | .verb c :: ds, [] => "%!" ++ c.toString ++ "(MISSING)" ++ Sprintf ds []
  | .verb _ :: ds, a :: args => a.format ++ Sprintf ds args

/-- The operand of the first `%w` verb, when it is an error. -/
def wrappedOperand : List Directive → List Value → Option GoError
  | [], _ => none
  | .lit _ :: ds, args => wrappedOperand ds args
  | .verb _ :: _, [] => none
  | .verb c :: ds, a :: args =>
    if c = 'w' then
      match a.asError with
      | some e => some e
      | none => wrappedOperand ds args
    else wrappedOperand ds args

/-- The function `fmt.Errorf`: the formatted text, wrapping the `%w` operand if there is one. -/
def Errorf (format : List Directive) (args : List Value) : GoError :=
  match wrappedOperand format args with
  | some e => .wrapError (Sprintf format args) e
  | none => .errorString (Sprintf format args)

/-- The constant `prefix` of `errFormat`. -/
def prefixLine : String := "PANIC CAUGHT:"

/-- errFormat formats an error based upon the return value of recover. -/
def errFormat (r : Value) : Option GoError :=
  if r = Value.nil then none
  else
    match r.asError with
    | some err => some (Errorf [.verb 's', .lit "\n", .verb 'w'] [.str prefixLine, .err err])
    | none => some (Errorf [.verb 's', .lit "\n", .verb 'v'] [.str prefixLine, r])

/-! ## Panics, the wait group, the observable world -/

/-- How a call ends: it returns, or it panics with a value. `panicked v` carries the value
`recover()` would return; `panicked Value.nil` arises only from `panic(nil)` on a runtime
that keeps nil panic values (see `gopanic`). -/
inductive Outcome where
  | returned
  | panicked (v : Value)
  deriving DecidableEq, Repr

/-- The error `*runtime.PanicNilError`. -/
def PanicNilError : GoError :=
  .errorString "panic called with nil argument"

/-- The builtin `panic(v)`. A nil `v` is replaced by a `*runtime.PanicNilError`, unless the
runtime keeps nil panic values (`panicnil` is true: `GODEBUG=panicnil=1`, or a main module
that declares a Go version before 1.21). -/
def gopanic (panicnil : Bool) (v : Value) : Outcome :=
  if v = Value.nil then
    if panicnil then .panicked Value.nil else .panicked (.err PanicNilError)
  else .panicked v

/-- The type `PanicHandler`, `func(interface{})`: called with the captured value, it returns
or panics. -/
abbrev PanicHandler := Value → Outcome

/-- The struct `WaitGroup`: the pending count of the embedded `sync.WaitGroup` and the
field `PanicHandler` (`none` is the nil func). -/
structure WaitGroup where
  counter : Int
  PanicHandler : Option PanicHandler

/-- Observable actions, in the order they happen. -/
inductive Event where
  | add (delta : Int)
  | done
  | spawn
  | body
  | handler (r : Value)
  | stderr (msg : String)
  deriving DecidableEq, Repr

/-- The process state: the wait group, the counter shared by the task bodies, the text
`debug.Stack()` returns, and the actions taken so far. -/
structure World where
  wg : WaitGroup
  shared : Nat
  stack : String
  trace : List Event

/-- Conversion to `int32`: the value of the low 32 bits, read as a signed integer. -/
def int32 (x : Int) : Int :=
  (x + 2147483648) % 4294967296 - 2147483648

/-- The method `sync.WaitGroup.Add`: the count is updated (in 32 bits), then a negative
count panics. (No goroutine is waiting when the launchers call `Add`, so the check for an
`Add` concurrent with `Wait` does not fire.) -/
def wgAdd (delta : Int) (w : World) : World × Outcome :=
  let v : Int := int32 (w.wg.counter + delta)
  let w1 : World := { w with wg := { w.wg with counter := v }, trace := w.trace ++ [Event.add delta] }
  if v < 0 then (w1, .panicked (.str "sync: negative WaitGroup counter")) else (w1, .returned)

/-- The method `sync.WaitGroup.Done`, which is `Add(-1)`. -/
def wgDone (w : World) : World × Outcome :=
  let v : Int := int32 (w.wg.counter + (-1))
  let w1 : World := { w with wg := { w.wg with counter := v }, trace := w.trace ++ [Event.done] }
  if v < 0 then (w1, .panicked (.str "sync: negative WaitGroup counter")) else (w1, .returned)

/-- A task body `f func()`. The launcher sees only how the body ends; every body increments
the shared counter once while it runs. -/
structure Func where
  result : Outcome
  deriving DecidableEq, Repr

/-- The call `f()`. -/
def Func.call (f : Func) (w : World) : World × Outcome :=
  ({ w with shared := w.shared + 1, trace := w.trace ++ [Event.body] }, f.result)

/-! ## Frames: defer, panic, recover -/

/-- The deferred calls of `wg.go`:
* `done`    is `defer wg.Done()`,
* `capture` is the deferred closure of `goRunner` (recover, then stderr or handler),
* `setErr`  is the deferred closure of `RunRecover` (`err = errFormat(recover())`). -/
inductive Deferred where
  | done
  | capture
  | setErr
  deriving DecidableEq, Repr

/-- A running function call: the body still to call (`none` once `f()` has ended), the
deferred calls not yet run (head runs first), the panic unwinding the frame, and the
named result `err`. -/
structure Frame where
  f : Option Func
  defers : List Deferred
  panicking : Option Value
  err : Option GoError
  deriving DecidableEq, Repr

/-- The builtin `recover()` called by a deferred function: returns the panic value (nil
when the frame is not panicking) and stops the panic. -/
def recover (panicking : Option Value) : Value × Option Value :=
  match panicking with
  | none => (Value.nil, none)
  | some v => (v, none)

/-- Run one deferred call in frame `fr`. A deferred call that panics replaces the panic
in flight. -/
def runDeferred (d : Deferred) (fr : Frame) (w : World) : Frame × World :=
  match d with
  | .done =>
    match wgDone w with
    | (w1, .returned) => (fr, w1)
    | (w1, .panicked v) => ({ fr with panicking := some v }, w1)
  | .setErr =>
    let (r, pan) := recover fr.panicking
    ({ fr with panicking := pan, err := errFormat r }, w)
  | .capture =>
    let (r, pan) := recover fr.panicking
    if r ≠ Value.nil then
      match w.wg.PanicHandler with
      | none =>
        ({ fr with panicking := pan },
         { w with trace := w.trace ++ [Event.stderr
            (Sprintf [.lit "Panic recovered in goroutine: ", .verb 'v', .lit "\n", .verb 's', .lit "\n"]
              [r, .str w.stack])] })
      | some h =>
        let w1 : World := { w with trace := w.trace ++ [Event.handler r] }
        match h r with
        | .returned => ({ fr with panicking := pan }, w1)
        | .panicked s => ({ fr with panicking := some s }, w1)
    else ({ fr with panicking := pan }, w)

/-- One atomic action of a frame: call the body, or else run the next deferred call. -/
def Frame.step (fr : Frame) (w : World) : Frame × World :=
  match fr.f with
  | some f =>
    match f.call w with
    | (w1, .returned) => ({ fr with f := none }, w1)
    | (w1, .panicked v) => ({ fr with f := none, panicking := some v }, w1)
  | none =>
    match fr.defers with
    | [] => (fr, w)
    | d :: ds => runDeferred d { fr with defers := ds } w

/-- The frame has nothing left to do. -/
def Frame.ended (fr : Frame) : Bool :=
  fr.f.isNone && fr.defers.isEmpty

/-- How an ended frame leaves its caller (or its goroutine). -/
def Frame.outcome (fr : Frame) : Outcome :=
  match fr.panicking with
  | none => .returned
  | some v => .panicked v

/-- Take `n` steps. -/
def Frame.steps : Nat → Frame → World → Frame × World
  | 0, fr, w => (fr, w)
  | n + 1, fr, w => let (fr1, w1) := fr.step w; Frame.steps n fr1 w1

/-- Run a frame to its end: the body, then every deferred call. -/
def Frame.run (fr : Frame) (w : World) : Frame × World :=
  Frame.steps (fr.defers.length + 1) fr w

/-! ## The launch variants -/

/-- The frame of `RunRecover` once its two `defer` statements have run. -/
def runRecoverFrame (f : Func) : Frame :=
  { f := some f, defers := [.setErr, .done], panicking := none, err := none }

/-- RunRecover runs f in the current goroutine to catch any panics and return them as an
error. Result: the world, how the call ends, and the returned `err`. -/
def RunRecover (f : Func) (w : World) : World × Outcome × Option GoError :=
  match wgAdd 1 w with
  | (w1, .panicked v) => (w1, .panicked v, none)
  | (w1, .returned) =>
    let (fr, w2) := Frame.run (runRecoverFrame f) w1
    (w2, fr.outcome, fr.err)

/-- The frame of the closure that `goRunner` starts with `go func() ...`. -/
def goFrame (f : Func) (handlePanics : Bool) : Frame :=
  { f := some f
    defers := if handlePanics then [.capture, .done] else [.done]
    panicking := none
    err := none }

/-- goRunner runs f in a new goroutine, and optionally captures panics with recover.
Result: the world, how the call ends in the caller, and the frame of the new goroutine. -/
def goRunner (f : Func) (handlePanics : Bool) (w : World) : World × Outcome × Option Frame :=
  match wgAdd 1 w with
  | (w1, .panicked v) => (w1, .panicked v, none)
  | (w1, .returned) =>
    ({ w1 with trace := w1.trace ++ [Event.spawn] }, .returned, some (goFrame f handlePanics))

/-- Go runs a function in a new goroutine using the usual Add, defer Done pattern. -/
def Go (f : Func) (w : World) : World × Outcome × Option Frame :=
  goRunner f false w

/-- GoRecover runs f in a new goroutine just like Go, but recovers from any panics. -/
def GoRecover (f : Func) (w : World) : World × Outcome × Option Frame :=
  goRunner f true w

/-- The three launch variants. -/
inductive Variant where
  | Go
  | GoRecover
  | RunRecover
  deriving DecidableEq, Repr

/-- What a launched task leaves behind once it has ended: the world, how the task ended,
and (for `RunRecover`) the returned error. -/
structure TaskEnd where
  world : World
  outcome : Outcome
  err : Option GoError

/-- Launch a goroutine and let it run to its end. -/
def spawnAndRun (launched : World × Outcome × Option Frame) : TaskEnd :=
  match launched with
  | (w1, o, none) => { world := w1, outcome := o, err := none }
  | (w1, _, some fr) =>
    let (fr1, w2) := fr.run w1
    { world := w2, outcome := fr1.outcome, err := none }

/-- Launch `f` with the given variant and let the task run to its end. -/
def runTask (k : Variant) (f : Func) (w : World) : TaskEnd :=
  match k with
  | .Go => spawnAndRun (Go f w)
  | .GoRecover => spawnAndRun (GoRecover f w)
  | .RunRecover =>
    match RunRecover f w with
    | (w1, o, e) => { world := w1, outcome := o, err := e }

/-- The actions a task added to the trace. -/
def newEvents (before after : World) : List Event :=
  after.trace.drop before.trace.length

/-- The actions on the pending count (`Add`, `Done`) in a list of events, in order. -/
def counterActions : List Event → List Event
  | [] => []
  | .add delta :: es => .add delta :: counterActions es
  | .done :: es => .done :: counterActions es
  | _ :: es => counterActions es

/-- Number of handler invocations in a list of events. -/
def countHandlerCalls : List Event → Nat
  | [] => 0
  | .handler _ :: es => countHandlerCalls es + 1
  | _ :: es => countHandlerCalls es

/-- The messages written to the diagnostic stream, in order. -/
def stderrWrites : List Event → List String
  | [] => []
  | .stderr msg :: es => msg :: stderrWrites es
  | _ :: es => stderrWrites es

/-- Some effect of a captured panic can be observed: a returned error, a handler
invocation, or a write to the diagnostic stream. -/
def observed (e : TaskEnd) (evs : List Event) : Bool :=
  e.err.isSome || decide (0 < countHandlerCalls evs) || !(stderrWrites evs).isEmpty

/-- A wait group with no handler and `n` units pending. -/
def World.withCount (n : Int) (stack : String) : World :=
  { wg := { counter := n, PanicHandler := none }, shared := 0, stack := stack, trace := [] }

/-- A zero-value `WaitGroup` in a fresh process. -/
def World.zero (stack : String) : World :=
  { wg := { counter := 0, PanicHandler := none }, shared := 0, stack := stack, trace := [] }

/-! ## Interleaved execution -/

/-- A call the main goroutine makes on the wait group. -/
structure Call where
  variant : Variant
  f : Func
  deriving DecidableEq, Repr

/-- A program `wg.X1(f1); ...; wg.Xn(fn); wg.Wait()` in execution.
* `prog`    the launches the main goroutine has still to make (then it calls `Wait`),
* `cur`     the `RunRecover` frame the main goroutine is executing, if any,
* `aborted` the main goroutine was left by a panic,
* `waited`  `Wait()` has returned,
* `gos`     the goroutines started so far. -/
structure Sys where
  world : World
  prog : List Call
  cur : Option Frame
  aborted : Bool
  waited : Bool
  gos : List Frame

/-- The main goroutine starts a goroutine with `Go` or `GoRecover`. -/
def Sys.launch (s : Sys) (rest : List Call) (launched : World × Outcome × Option Frame) : Sys :=
  match launched with
  | (w1, .returned, some fr) => { s with world := w1, prog := rest, gos := s.gos ++ [fr] }
  | (w1, _, _) => { s with world := w1, aborted := true }

/-- One atomic action of the main goroutine. `Wait()` returns only when the pending count
is zero; until then the main goroutine is blocked. -/
def mainStep (s : Sys) : Sys :=
  if s.aborted || s.waited then s
  else
    match s.cur with
    | some fr =>
      if fr.ended then
        match fr.outcome with
        | .returned => { s with cur := none }
        | .panicked _ => { s with cur := none, aborted := true }
      else
        let (fr1, w1) := fr.step s.world
        { s with cur := some fr1, world := w1 }
    | none =>
      match s.prog with
      | [] => if s.world.wg.counter = 0 then { s with waited := true } else s
      | c :: rest =>
        match c.variant with
        | .Go => s.launch rest (Go c.f s.world)
        | .GoRecover => s.launch rest (GoRecover c.f s.world)
        | .RunRecover =>
          match wgAdd 1 s.world with
          | (w1, .returned) => { s with world := w1, prog := rest, cur := some (runRecoverFrame c.f) }
          | (w1, .panicked _) => { s with world := w1, aborted := true }

/-- One atomic action of the goroutine number `i` (no action if there is none). -/
def stepAt : Nat → List Frame → World → List Frame × World
  | _, [], w => ([], w)
  | 0, fr :: rest, w => let (fr1, w1) := fr.step w; (fr1 :: rest, w1)
  | i + 1, fr :: rest, w => let (rest1, w1) := stepAt i rest w; (fr :: rest1, w1)

/-- One step of the system: `0` schedules the main goroutine, `i + 1` the goroutine `i`. -/
def sysStep (s : Sys) (who : Nat) : Sys :=
  match who with
  | 0 => mainStep s
  | i + 1 => let (gos1, w1) := stepAt i s.gos s.world; { s with gos := gos1, world := w1 }

/-- Run the system under a schedule. -/
def exec (s : Sys) (sched : List Nat) : Sys :=
  sched.foldl sysStep s

/-- The program `calls` followed by `Wait()`, on a zero-value `WaitGroup`. -/
def Sys.init (stack : String) (calls : List Call) : Sys :=
  { world := World.zero stack, prog := calls, cur := none, aborted := false, waited := false, gos := [] }

/-- The frame has still to run (or to finish) its body: 1, otherwise 0. -/
def Frame.unfinished (fr : Frame) : Nat :=
  if fr.f.isSome then 1 else 0

/-- Number of launched tasks whose body has not finished. -/
def Sys.unfinished (s : Sys) : Nat :=
  (s.gos.map Frame.unfinished).sum + (match s.cur with | some fr => fr.unfinished | none => 0)

/-- A world whose wait group has the handler `H` installed and `n` units pending. -/
def World.withHandler (H : PanicHandler) (n : Int) (stack : String) : World :=
  { wg := { counter := n, PanicHandler := some H }, shared := 0, stack := stack, trace := [] }

/-! ## Invariant of the interleaved execution -/

/-- Number of `Done()` calls the frame has still to make. -/
def Frame.pending (fr : Frame) : Nat :=
  fr.defers.count Deferred.done

/-- Number of `Done()` calls the launched tasks have still to make. -/
def Sys.pending (s : Sys) : Nat :=
  (s.gos.map Frame.pending).sum + (match s.cur with | some fr => fr.pending | none => 0)

/-- The invariant of the interleaved execution of `n` launches followed by `Wait()`. -/
structure Inv (n : Nat) (s : Sys) : Prop where
  small : n ≤ 2147483647
  count : s.world.wg.counter = (s.pending : Int)
  bound : s.pending + s.prog.length ≤ n
  gosOk : ∀ fr ∈ s.gos, fr.unfinished ≤ fr.pending
  curOk : ∀ fr, s.cur = some fr → fr.unfinished ≤ fr.pending
  total : s.world.shared + s.unfinished + s.prog.length = n
  afterWait : s.waited = true → s.prog = [] ∧ s.cur = none ∧ s.unfinished = 0


/-- Three calls, one of each variant: a body that returns, a body that panics with a
string, a body that panics with an error. -/
def demoCalls : List Call :=
  [⟨Variant.Go, ⟨Outcome.returned⟩⟩,
   ⟨Variant.GoRecover, ⟨Outcome.panicked (Value.str "boom")⟩⟩,
   ⟨Variant.RunRecover, ⟨Outcome.panicked (Value.err (GoError.errorString "bad"))⟩⟩]

/-- A schedule that interleaves the main goroutine with the two goroutines of `demoCalls`;
the main goroutine reaches `Wait()` while one unit is still pending. -/
def demoSched : List Nat :=
  [0, 0, 1, 0, 2, 0, 0, 1, 2, 0, 0, 0, 2, 0]

/-! ## Helper lemmas -/

theorem int32_of_range (x : Int) (h0 : -2147483648 ≤ x) (h1 : x ≤ 2147483647) : int32 x = x := by
  unfold int32
  omega

theorem wgAdd_one (w : World) (h0 : 0 ≤ w.wg.counter) (h1 : w.wg.counter < 2147483647) :
    wgAdd 1 w = ({ w with wg := { w.wg with counter := w.wg.counter + 1 },
                          trace := w.trace ++ [Event.add 1] }, Outcome.returned) := by
  have h : int32 (w.wg.counter + 1) = w.wg.counter + 1 := int32_of_range _ (by omega) (by omega)
  have h2 : ¬ (w.wg.counter + 1 < 0) := by omega
  simp [wgAdd, h, h2]

theorem wgDone_pos (w : World) (h0 : 0 < w.wg.counter) (h1 : w.wg.counter ≤ 2147483647) :
    wgDone w = ({ w with wg := { w.wg with counter := w.wg.counter - 1 },
                         trace := w.trace ++ [Event.done] }, Outcome.returned) := by
  have h : int32 (w.wg.counter + -1) = w.wg.counter - 1 := by
    rw [int32_of_range _ (by omega) (by omega)]; omega
  have h2 : ¬ (w.wg.counter - 1 < 0) := by omega
  simp [wgDone, h, h2]

theorem errorsIs_self (e : GoError) : errorsIs e e = true := by
  cases e <;> simp [errorsIs]

theorem errFormat_error (E : GoError) :
    errFormat (.err E) = some (.wrapError ("PANIC CAUGHT:\n" ++ E.Error) E) := by
  simp [errFormat, Value.asError, Errorf, wrappedOperand, Sprintf, Value.format, prefixLine]
  rw [← String.append_assoc]; rfl

theorem errFormat_non_error (v : Value) (hnil : v ≠ Value.nil) (herr : v.asError = none) :
    errFormat v = some (.errorString ("PANIC CAUGHT:\n" ++ v.format)) := by
  cases v with
  | nil => exact absurd rfl hnil
  | err e => simp [Value.asError] at herr
  | str s =>
    simp [errFormat, Value.asError, Errorf, wrappedOperand, Sprintf, Value.format, prefixLine]
    rw [← String.append_assoc]; rfl
  | other t =>
    simp [errFormat, Value.asError, Errorf, wrappedOperand, Sprintf, Value.format, prefixLine]
    rw [← String.append_assoc]; rfl


/-! ## Lemmas on the interleaved execution -/

theorem Frame.step_spec (fr : Frame) (w : World) (h : (fr.pending : Int) ≤ w.wg.counter)
    (hmax : w.wg.counter ≤ 2147483647) :
    (fr.step w).2.wg.counter + fr.pending = w.wg.counter + (fr.step w).1.pending ∧
      (fr.step w).2.shared + (fr.step w).1.unfinished = w.shared + fr.unfinished ∧
      (fr.step w).1.unfinished = 0 ∧
      (fr.step w).1.pending ≤ fr.pending := by
  rcases fr with ⟨f, defers, pan, err⟩
  cases f with
  | some f =>
    rcases hres : f.result with _ | v <;>
      simp [Frame.step, Func.call, hres, Frame.pending, Frame.unfinished]
  | none =>
    cases defers with
    | nil => simp [Frame.step, Frame.pending, Frame.unfinished]
    | cons d ds =>
      cases d with
      | done =>
        have hc : 0 < w.wg.counter := by
          simp [Frame.pending] at h
          omega
        have hd := wgDone_pos w hc hmax
        simp [Frame.step, runDeferred, hd, Frame.pending, Frame.unfinished]
      | setErr =>
        simp [Frame.step, runDeferred, Frame.pending, Frame.unfinished]
      | capture =>
        simp only [Frame.step, runDeferred]
        split
        · rcases hh : w.wg.PanicHandler with _ | H
          · simp [Frame.pending, Frame.unfinished]
          · simp only []
            split <;> simp [Frame.pending, Frame.unfinished]
        · simp [Frame.pending, Frame.unfinished]

theorem stepAt_spec (i : Nat) (gos : List Frame) (w : World)
    (h : ((gos.map Frame.pending).sum : Int) ≤ w.wg.counter)
    (hmax : w.wg.counter ≤ 2147483647)
    (hok : ∀ fr ∈ gos, fr.unfinished ≤ fr.pending) :
    (stepAt i gos w).2.wg.counter + ((gos.map Frame.pending).sum : Int)
        = w.wg.counter + (((stepAt i gos w).1.map Frame.pending).sum : Int) ∧
      (stepAt i gos w).2.shared + ((stepAt i gos w).1.map Frame.unfinished).sum
        = w.shared + (gos.map Frame.unfinished).sum ∧
      (∀ fr ∈ (stepAt i gos w).1, fr.unfinished ≤ fr.pending) ∧
      ((stepAt i gos w).1.map Frame.unfinished).sum ≤ (gos.map Frame.unfinished).sum ∧
      ((stepAt i gos w).1.map Frame.pending).sum ≤ (gos.map Frame.pending).sum := by
  induction gos generalizing i with
  | nil => cases i <;> simp [stepAt]
  | cons fr rest ih =>
    simp only [List.map_cons, List.sum_cons, Nat.cast_add] at h
    cases i with
    | zero =>
      obtain ⟨h1, h2, h3, h4⟩ := Frame.step_spec fr w (by omega) hmax
      simp only [stepAt, List.map_cons, List.sum_cons, Nat.cast_add]
      refine ⟨by omega, by omega, ?_, by omega, by omega⟩
      intro g hg
      rcases List.mem_cons.mp hg with rfl | hg
      · omega
      · exact hok g (List.mem_cons_of_mem _ hg)
    | succ i =>
      obtain ⟨h1, h2, h3, h4, h5⟩ :=
        ih i (by omega) (fun g hg => hok g (List.mem_cons_of_mem _ hg))
      simp only [stepAt, List.map_cons, List.sum_cons, Nat.cast_add]
      refine ⟨by omega, by omega, ?_, by omega, by omega⟩
      intro g hg
      rcases List.mem_cons.mp hg with rfl | hg
      · exact hok g (List.mem_cons_self _ _)
      · exact h3 g hg

theorem sum_unfinished_le (gos : List Frame) (hok : ∀ fr ∈ gos, fr.unfinished ≤ fr.pending) :
    (gos.map Frame.unfinished).sum ≤ (gos.map Frame.pending).sum := by
  induction gos with
  | nil => simp
  | cons fr rest ih =>
    have h1 := hok fr (List.mem_cons_self _ _)
    have h2 := ih (fun g hg => hok g (List.mem_cons_of_mem _ hg))
    simp only [List.map_cons, List.sum_cons]
    omega

theorem Inv.unfinished_le {n : Nat} {s : Sys} (h : Inv n s) :
    (s.unfinished : Int) ≤ s.world.wg.counter := by
  have h1 := sum_unfinished_le s.gos h.gosOk
  have h2 := h.count
  have h3 := h.curOk
  unfold Sys.pending at h2
  unfold Sys.unfinished
  cases hc : s.cur with
  | none => simp only [hc] at h2 ⊢; omega
  | some fr =>
    have := h3 fr hc
    simp only [hc] at h2 ⊢; omega

theorem Inv.step_go {n : Nat} {s : Sys} (h : Inv n s) (i : Nat) : Inv n (sysStep s (i + 1)) := by
  have hc := h.count
  have hb := h.bound
  have hs := h.small
  have ht := h.total
  have hw := h.afterWait
  unfold Sys.pending at hc hb
  unfold Sys.unfinished at ht hw
  obtain ⟨h1, h2, h3, h4, h5⟩ := stepAt_spec i s.gos s.world (by omega) (by omega) h.gosOk
  refine ⟨hs, ?_, ?_, ?_, ?_, ?_, ?_⟩
  · simp only [sysStep, Sys.pending]; omega
  · simp only [sysStep, Sys.pending]; omega
  · simpa [sysStep] using h3
  · simpa [sysStep] using h.curOk
  · simp only [sysStep, Sys.unfinished]; omega
  · intro hwt
    obtain ⟨hp, hcur, hu⟩ := hw (by simpa [sysStep] using hwt)
    refine ⟨by simpa [sysStep] using hp, by simpa [sysStep] using hcur, ?_⟩
    simp only [sysStep, Sys.unfinished]
    omega

theorem goFrame_pending (f : Func) (b : Bool) : (goFrame f b).pending = 1 := by
  cases b <;> simp [goFrame, Frame.pending]

theorem runRecoverFrame_pending (f : Func) : (runRecoverFrame f).pending = 1 := by
  simp [runRecoverFrame, Frame.pending]

theorem runRecoverFrame_unfinished (f : Func) : (runRecoverFrame f).unfinished = 1 := by
  simp [runRecoverFrame, Frame.unfinished]

theorem goFrame_unfinished (f : Func) (b : Bool) : (goFrame f b).unfinished = 1 := by
  simp [goFrame, Frame.unfinished]

theorem Inv.step_launch {n : Nat} {s : Sys} (h : Inv n s) (c : Call) (rest : List Call) (b : Bool)
    (hcur : s.cur = none) (hprog : s.prog = c :: rest) (hwt : s.waited = false) :
    Inv n (s.launch rest (goRunner c.f b s.world)) := by
  have hc := h.count
  have hb := h.bound
  have hs := h.small
  have ht := h.total
  unfold Sys.pending at hc hb
  unfold Sys.unfinished at ht
  simp only [hcur, hprog, List.length_cons] at hc hb ht
  have hp := goFrame_pending c.f b
  have hu := goFrame_unfinished c.f b
  have hadd := wgAdd_one s.world (by omega) (by omega)
  refine ⟨hs, ?_, ?_, ?_, ?_, ?_, ?_⟩
  · simp only [Sys.launch, goRunner, hadd, Sys.pending, hcur, List.map_append,
      List.sum_append, List.map_cons, List.map_nil, List.sum_cons, List.sum_nil]
    omega
  · simp only [Sys.launch, goRunner, hadd, Sys.pending, hcur, List.map_append,
      List.sum_append, List.map_cons, List.map_nil, List.sum_cons, List.sum_nil]
    omega
  · intro g hg
    simp only [Sys.launch, goRunner, hadd, List.mem_append, List.mem_singleton] at hg
    rcases hg with hg | rfl
    · exact h.gosOk g hg
    · omega
  · intro g hg
    simp [Sys.launch, goRunner, hadd, hcur] at hg
  · simp only [Sys.launch, goRunner, hadd, Sys.unfinished, hcur, List.map_append,
      List.sum_append, List.map_cons, List.map_nil, List.sum_cons, List.sum_nil]
    omega
  · intro hw
    simp [Sys.launch, goRunner, hadd, hwt] at hw

theorem Inv.step_main {n : Nat} {s : Sys} (h : Inv n s) : Inv n (mainStep s) := by
  unfold mainStep
  by_cases hg : (s.aborted || s.waited) = true
  · simpa [hg] using h
  · have hwt : s.waited = false := by
      cases hw : s.waited <;> simp_all
    simp only [hg, Bool.false_eq_true, ↓reduceIte]
    have hc := h.count
    have hb := h.bound
    have hs := h.small
    have ht := h.total
    unfold Sys.pending at hc hb
    unfold Sys.unfinished at ht
    cases hcur : s.cur with
    | some fr =>
      simp only [hcur] at hc hb ht ⊢
      have hfr := h.curOk fr hcur
      by_cases he : fr.ended = true
      · have hf : fr.f = none := by
          simp [Frame.ended] at he
          exact he.1
        have hd : fr.defers = [] := by
          simp [Frame.ended] at he
          exact he.2
        have hp0 : fr.pending = 0 := by simp [Frame.pending, hd]
        have hu0 : fr.unfinished = 0 := by simp [Frame.unfinished, hf]
        simp only [he, ↓reduceIte]
        cases fr.outcome with
        | returned =>
          refine ⟨hs, ?_, ?_, h.gosOk, ?_, ?_, ?_⟩
          · simp only [Sys.pending]; omega
          · simp only [Sys.pending]; omega
          · intro g hg; simp at hg
          · simp only [Sys.unfinished]; omega
          · intro hw; simp [hwt] at hw
        | panicked v =>
          refine ⟨hs, ?_, ?_, h.gosOk, ?_, ?_, ?_⟩
          · simp only [Sys.pending]; omega
          · simp only [Sys.pending]; omega
          · intro g hg; simp at hg
          · simp only [Sys.unfinished]; omega
          · intro hw; simp [hwt] at hw
      · simp only [he, Bool.false_eq_true, ↓reduceIte]
        obtain ⟨h1, h2, h3, h4⟩ := Frame.step_spec fr s.world (by omega) (by omega)
        refine ⟨hs, ?_, ?_, h.gosOk, ?_, ?_, ?_⟩
        · simp only [Sys.pending]; omega
        · simp only [Sys.pending]; omega
        · intro g hg
          simp only [Option.some.injEq] at hg
          subst hg
          omega
        · simp only [Sys.unfinished]; omega
        · intro hw; simp [hwt] at hw
    | none =>
      simp only [hcur] at hc hb ht ⊢
      cases hprog : s.prog with
      | nil =>
        simp only [hprog, List.length_nil] at hb ht ⊢
        by_cases hz : s.world.wg.counter = 0
        · simp only [hz, ↓reduceIte]
          have hle := sum_unfinished_le s.gos h.gosOk
          refine ⟨hs, ?_, ?_, h.gosOk, ?_, ?_, ?_⟩
          · simp only [Sys.pending, hcur]; omega
          · simp only [Sys.pending, hcur, List.length_nil]; omega
          · intro g hg; simp [hcur] at hg
          · simp only [Sys.unfinished, hcur, List.length_nil]; omega
          · intro _
            refine ⟨rfl, rfl, ?_⟩
            simp only [Sys.unfinished, hcur]; omega
        · simpa [hz] using h
      | cons c rest =>
        simp only []
        cases hv : c.variant with
        | Go => exact h.step_launch c rest false hcur hprog hwt
        | GoRecover => exact h.step_launch c rest true hcur hprog hwt
        | RunRecover =>
          simp only [hprog, List.length_cons] at hb ht
          have hadd := wgAdd_one s.world (by omega) (by omega)
          simp only [hadd]
          have hp := runRecoverFrame_pending c.f
          have hu := runRecoverFrame_unfinished c.f
          refine ⟨hs, ?_, ?_, h.gosOk, ?_, ?_, ?_⟩
          · simp only [Sys.pending]; omega
          · simp only [Sys.pending]; omega
          · intro g hg
            simp only [Option.some.injEq] at hg
            subst hg
            omega
          · simp only [Sys.unfinished]; omega
          · intro hw; simp [hwt] at hw

theorem Inv.step_sys {n : Nat} {s : Sys} (h : Inv n s) (who : Nat) : Inv n (sysStep s who) := by
  cases who with
  | zero => exact h.step_main
  | succ i => exact h.step_go i

theorem Inv.run {n : Nat} (sched : List Nat) {s : Sys} (h : Inv n s) : Inv n (exec s sched) := by
  induction sched generalizing s with
  | nil => exact h
  | cons who rest ih => exact ih (h.step_sys who)

theorem Inv.start (stack : String) (calls : List Call) (hN : calls.length ≤ 2147483647) :
    Inv calls.length (Sys.init stack calls) := by
  refine ⟨hN, rfl, ?_, ?_, ?_, ?_, ?_⟩
  · simp [Sys.init, Sys.pending]
  · intro g hg; simp [Sys.init] at hg
  · intro g hg; simp [Sys.init] at hg
  · simp [Sys.init, Sys.unfinished, World.zero]
  · intro hw; simp [Sys.init] at hw

/-! ## Capture of a non-nil panic -/

/-- When the body panics with a value that `recover()` returns as non-nil, a capturing launch
(`RunRecover` or `GoRecover`) has an observable effect: `RunRecover` returns a non-nil
error, `GoRecover` with a handler calls it, `GoRecover` without a handler writes to the
diagnostic stream. The wait group can register the
unit: its pending count is from 0 to 2147483646. -/
theorem nonnil_panic_is_observed (k : Variant) (f : Func) (w : World) (v : Value)
    (hk : k ≠ Variant.Go) (hf : f.result = Outcome.panicked v) (hv : v ≠ Value.nil)
    (h0 : 0 ≤ w.wg.counter) (h1 : w.wg.counter < 2147483647) :
    observed (runTask k f w) (newEvents w (runTask k f w).world) = true ∧
      (k = Variant.RunRecover → (runTask k f w).err ≠ none) ∧
      (k = Variant.GoRecover → w.wg.PanicHandler ≠ none →
        countHandlerCalls (newEvents w (runTask k f w).world) = 1) ∧
      (k = Variant.GoRecover → w.wg.PanicHandler = none →
        (stderrWrites (newEvents w (runTask k f w).world)).length = 1) := by
  have hadd := wgAdd_one w h0 h1
  have h2 : ¬ (w.wg.counter < 0) := by omega
  have h3 : int32 w.wg.counter = w.wg.counter := int32_of_range _ (by omega) (by omega)
  have h4 : int32 (w.wg.counter + 1 + -1) = w.wg.counter := by
    rw [int32_of_range _ (by omega) (by omega)]; omega
  cases k
  · exact absurd rfl hk
  · rcases hh : w.wg.PanicHandler with _ | H
    · simp [runTask, Go, GoRecover, goRunner, spawnAndRun, goFrame, RunRecover, hadd, h2, h3, h4,
    Frame.run, Frame.steps, Frame.step, runRecoverFrame, Func.call, runDeferred, recover,
    wgDone, Frame.outcome, newEvents, counterActions, countHandlerCalls, stderrWrites, observed, hf, hv, hh]
    · rcases hH : H v with _ | s <;> simp [runTask, Go, GoRecover, goRunner, spawnAndRun, goFrame, RunRecover, hadd, h2, h3, h4,
    Frame.run, Frame.steps, Frame.step, runRecoverFrame, Func.call, runDeferred, recover,
    wgDone, Frame.outcome, newEvents, counterActions, countHandlerCalls, stderrWrites, observed, hf, hv, hh, hH]
  · simp [runTask, Go, GoRecover, goRunner, spawnAndRun, goFrame, RunRecover, hadd, h2, h3, h4,
    Frame.run, Frame.steps, Frame.step, runRecoverFrame, Func.call, runDeferred, recover,
    wgDone, Frame.outcome, newEvents, counterActions, countHandlerCalls, stderrWrites, observed, hf, hv, errFormat]
    cases v <;> simp_all [Value.asError]

/-! ## The claims -/

/-- Counterexample to C1 as stated: on a wait group with 2147483647 units pending, `Add(1)`
wraps the count to -2147483648 and panics before any `defer` is registered. `RunRecover`
and `GoRecover` panic in the caller, the body never runs, `Done()` is never called and the
pending count is not the count before the launch. -/
theorem launch_at_max_count_counterexample :
    counterActions (newEvents (World.withCount 2147483647 "")
        (runTask Variant.RunRecover ⟨Outcome.returned⟩ (World.withCount 2147483647 "")).world)
      = [Event.add 1] ∧
    (runTask Variant.RunRecover ⟨Outcome.returned⟩ (World.withCount 2147483647 "")).outcome
      = Outcome.panicked (Value.str "sync: negative WaitGroup counter") ∧
    (runTask Variant.RunRecover ⟨Outcome.returned⟩ (World.withCount 2147483647 "")).world.wg.counter
      = -2147483648 ∧
    newEvents (World.withCount 2147483647 "")
        (runTask Variant.GoRecover ⟨Outcome.returned⟩ (World.withCount 2147483647 "")).world
      = [Event.add 1] ∧
    (runTask Variant.GoRecover ⟨Outcome.returned⟩ (World.withCount 2147483647 "")).world.wg.counter
      ≠ (World.withCount 2147483647 "").wg.counter := by
  decide

/-- C1, amended. On a wait group whose pending count is from 0 to 2147483646, whatever the
launch variant (Go, GoRecover, RunRecover), the task body, the way the body ends (return or
panic) and the handler (absent, returning, panicking), the task acts on the pending count
exactly twice, one `Add(1)` followed by one `Done()`, and the pending count after the task
has ended is the pending count before the launch. -/
theorem launch_balances_pending_count (k : Variant) (f : Func) (w : World)
    (h0 : 0 ≤ w.wg.counter) (h1 : w.wg.counter < 2147483647) :
    counterActions (newEvents w (runTask k f w).world) = [Event.add 1, Event.done] ∧
      (runTask k f w).world.wg.counter = w.wg.counter := by
  have hadd := wgAdd_one w h0 h1
  have h2 : ¬ (w.wg.counter < 0) := by omega
  have h3 : int32 w.wg.counter = w.wg.counter := int32_of_range _ (by omega) (by omega)
  have h4 : int32 (w.wg.counter + 1 + -1) = w.wg.counter := by
    rw [int32_of_range _ (by omega) (by omega)]; omega
  rcases f with ⟨_ | v⟩
  · cases k <;> simp [runTask, Go, GoRecover, goRunner, spawnAndRun, goFrame, RunRecover, hadd, h2, h3, h4,
    Frame.run, Frame.steps, Frame.step, runRecoverFrame, Func.call, runDeferred, recover,
    wgDone, Frame.outcome, newEvents, counterActions, countHandlerCalls, stderrWrites]
  · cases k
    · simp [runTask, Go, GoRecover, goRunner, spawnAndRun, goFrame, RunRecover, hadd, h2, h3, h4,
    Frame.run, Frame.steps, Frame.step, runRecoverFrame, Func.call, runDeferred, recover,
    wgDone, Frame.outcome, newEvents, counterActions, countHandlerCalls, stderrWrites]
    · by_cases hv : v = Value.nil
      · simp [runTask, Go, GoRecover, goRunner, spawnAndRun, goFrame, RunRecover, hadd, h2, h3, h4,
    Frame.run, Frame.steps, Frame.step, runRecoverFrame, Func.call, runDeferred, recover,
    wgDone, Frame.outcome, newEvents, counterActions, countHandlerCalls, stderrWrites, hv]
      · rcases hh : w.wg.PanicHandler with _ | H
        · simp [runTask, Go, GoRecover, goRunner, spawnAndRun, goFrame, RunRecover, hadd, h2, h3, h4,
    Frame.run, Frame.steps, Frame.step, runRecoverFrame, Func.call, runDeferred, recover,
    wgDone, Frame.outcome, newEvents, counterActions, countHandlerCalls, stderrWrites, hv, hh]
        · rcases hH : H v with _ | s <;> simp [runTask, Go, GoRecover, goRunner, spawnAndRun, goFrame, RunRecover, hadd, h2, h3, h4,
    Frame.run, Frame.steps, Frame.step, runRecoverFrame, Func.call, runDeferred, recover,
    wgDone, Frame.outcome, newEvents, counterActions, countHandlerCalls, stderrWrites, hv, hh, hH]
    · simp [runTask, Go, GoRecover, goRunner, spawnAndRun, goFrame, RunRecover, hadd, h2, h3, h4,
    Frame.run, Frame.steps, Frame.step, runRecoverFrame, Func.call, runDeferred, recover,
    wgDone, Frame.outcome, newEvents, counterActions, countHandlerCalls, stderrWrites]

/-- Witness of C1 amended: `GoRecover` of a panicking body with a handler that panics too,
two units already pending. -/
theorem launch_balances_pending_count_witness :
    counterActions (newEvents (World.withHandler (fun _ => Outcome.panicked (Value.str "again")) 2 "")
        (runTask Variant.GoRecover ⟨Outcome.panicked (Value.str "boom")⟩
          (World.withHandler (fun _ => Outcome.panicked (Value.str "again")) 2 "")).world)
        = [Event.add 1, Event.done] ∧
      (runTask Variant.GoRecover ⟨Outcome.panicked (Value.str "boom")⟩
          (World.withHandler (fun _ => Outcome.panicked (Value.str "again")) 2 "")).world.wg.counter
        = (World.withHandler (fun _ => Outcome.panicked (Value.str "again")) 2 "").wg.counter :=
  launch_balances_pending_count Variant.GoRecover ⟨Outcome.panicked (Value.str "boom")⟩
    (World.withHandler (fun _ => Outcome.panicked (Value.str "again")) 2 "") (by decide) (by decide)

/-- C2. For every list of at most 2147483647 calls to Go, GoRecover, RunRecover on a
zero-value wait group, followed by `Wait()`, and every interleaving of the main goroutine
with the goroutines it starts: in every state reached the pending count is at least the
number of launched tasks whose body has not finished, and once `Wait()` has returned no body
is unfinished and the shared counter, incremented once by each body, equals the number of
calls. (The pending count is a 32-bit integer: it cannot register more units.) -/
theorem wait_returns_after_all_bodies (stack : String) (calls : List Call) (sched : List Nat)
    (hN : calls.length ≤ 2147483647) :
    ((exec (Sys.init stack calls) sched).unfinished : Int)
        ≤ (exec (Sys.init stack calls) sched).world.wg.counter ∧
      ((exec (Sys.init stack calls) sched).waited = true →
        (exec (Sys.init stack calls) sched).unfinished = 0 ∧
        (exec (Sys.init stack calls) sched).world.shared = calls.length) := by
  have h := Inv.run sched (Inv.start stack calls hN)
  refine ⟨h.unfinished_le, ?_⟩
  intro hw
  obtain ⟨hp, _, hu⟩ := h.afterWait hw
  have ht := h.total
  rw [hu, hp] at ht
  exact ⟨hu, by simpa using ht⟩

/-- Witness of C2: on `demoCalls` under `demoSched`, `Wait()` is still blocked after twelve
steps (one unit pending), then returns, and the shared counter reads 3. -/
theorem wait_returns_after_all_bodies_witness :
    (exec (Sys.init "" demoCalls) (demoSched.take 12)).waited = false ∧
      (exec (Sys.init "" demoCalls) demoSched).waited = true ∧
      (exec (Sys.init "" demoCalls) demoSched).world.shared = 3 :=
  ⟨by decide, by decide,
    ((wait_returns_after_all_bodies "" demoCalls demoSched (by decide)).2 (by decide)).2⟩

/-- C3. When the body panics with an error value `E`, `RunRecover` returns a non-nil error
whose `Unwrap` is `E` (so `errors.Is` finds `E`) and whose message is `PANIC CAUGHT:`, a
newline, and the message of `E`; the message begins with `PANIC CAUGHT:`. The wait group can register the
unit: its pending count is from 0 to 2147483646. -/
theorem RunRecover_wraps_error (E : GoError) (f : Func) (w : World)
    (hf : f.result = Outcome.panicked (Value.err E))
    (h0 : 0 ≤ w.wg.counter) (h1 : w.wg.counter < 2147483647) :
    ∃ res, (RunRecover f w).2.2 = some res ∧ res.Unwrap = some E ∧ errorsIs res E = true ∧
      res.Error = "PANIC CAUGHT:" ++ "\n" ++ E.Error ∧
      ∃ rest, res.Error = "PANIC CAUGHT:" ++ rest := by
  have hadd := wgAdd_one w h0 h1
  have h2 : ¬ (w.wg.counter < 0) := by omega
  have h3 : int32 w.wg.counter = w.wg.counter := int32_of_range _ (by omega) (by omega)
  have h4 : int32 (w.wg.counter + 1 + -1) = w.wg.counter := by
    rw [int32_of_range _ (by omega) (by omega)]; omega
  refine ⟨GoError.wrapError ("PANIC CAUGHT:\n" ++ E.Error) E, ?_, rfl, ?_, ?_, ?_⟩
  · simp [runTask, Go, GoRecover, goRunner, spawnAndRun, goFrame, RunRecover, hadd, h2, h3, h4,
    Frame.run, Frame.steps, Frame.step, runRecoverFrame, Func.call, runDeferred, recover,
    wgDone, Frame.outcome, newEvents, counterActions, countHandlerCalls, stderrWrites, hf, errFormat_error]
  · simp [errorsIs, errorsIs_self]
  · simp only [GoError.Error]
    rw [String.append_assoc]; rfl
  · exact ⟨"\n" ++ E.Error, by simp only [GoError.Error]; rw [← String.append_assoc]; rfl⟩

/-- Witness of C3: the panic of `TestRunRecover_WithPanic`. -/
theorem RunRecover_wraps_error_witness :
    ∃ res, (RunRecover ⟨Outcome.panicked (Value.err (GoError.errorString "test panic"))⟩
        (World.zero "")).2.2 = some res ∧
      res.Unwrap = some (GoError.errorString "test panic") ∧
      errorsIs res (GoError.errorString "test panic") = true ∧
      res.Error = "PANIC CAUGHT:" ++ "\n" ++ (GoError.errorString "test panic").Error ∧
      ∃ rest, res.Error = "PANIC CAUGHT:" ++ rest :=
  RunRecover_wraps_error (GoError.errorString "test panic")
    ⟨Outcome.panicked (Value.err (GoError.errorString "test panic"))⟩ (World.zero "") rfl
    (by decide) (by decide)

/-- C4. When the body panics with a value `v` that is not nil and is not an error,
`RunRecover` returns an error whose message is exactly `PANIC CAUGHT:`, a newline, and the
default rendering of `v` (for a string `x`, the string itself), and which wraps nothing. The wait group can register the
unit: its pending count is from 0 to 2147483646. -/
theorem RunRecover_formats_non_error (v : Value) (f : Func) (w : World)
    (hf : f.result = Outcome.panicked v) (hnil : v ≠ Value.nil) (herr : v.asError = none)
    (h0 : 0 ≤ w.wg.counter) (h1 : w.wg.counter < 2147483647) :
    ∃ res, (RunRecover f w).2.2 = some res ∧ res.Error = "PANIC CAUGHT:\n" ++ v.format ∧
      res.Unwrap = none ∧ ∀ x, v = Value.str x → res.Error = "PANIC CAUGHT:\n" ++ x := by
  have hadd := wgAdd_one w h0 h1
  have h2 : ¬ (w.wg.counter < 0) := by omega
  have h3 : int32 w.wg.counter = w.wg.counter := int32_of_range _ (by omega) (by omega)
  have h4 : int32 (w.wg.counter + 1 + -1) = w.wg.counter := by
    rw [int32_of_range _ (by omega) (by omega)]; omega
  refine ⟨GoError.errorString ("PANIC CAUGHT:\n" ++ v.format), ?_, rfl, rfl, ?_⟩
  · simp [runTask, Go, GoRecover, goRunner, spawnAndRun, goFrame, RunRecover, hadd, h2, h3, h4,
    Frame.run, Frame.steps, Frame.step, runRecoverFrame, Func.call, runDeferred, recover,
    wgDone, Frame.outcome, newEvents, counterActions, countHandlerCalls, stderrWrites, hf, errFormat_non_error v hnil herr]
  · intro x hx
    subst hx
    rfl

/-- Witness of C4: the panic of `ExampleWaitGroup_RunRecover`. -/
theorem RunRecover_formats_non_error_witness :
    ∃ res, (RunRecover ⟨Outcome.panicked (Value.str "panic in RunRecover")⟩ (World.zero "")).2.2
        = some res ∧
      res.Error = "PANIC CAUGHT:\n" ++ (Value.str "panic in RunRecover").format ∧
      res.Unwrap = none ∧
      ∀ x, Value.str "panic in RunRecover" = Value.str x → res.Error = "PANIC CAUGHT:\n" ++ x :=
  RunRecover_formats_non_error (Value.str "panic in RunRecover")
    ⟨Outcome.panicked (Value.str "panic in RunRecover")⟩ (World.zero "") rfl (by decide) rfl
    (by decide) (by decide)

/-- C5. When the body returns normally, `RunRecover` runs it exactly once, in the caller
(no goroutine is started), returns normally and returns no error; `errFormat` of an absent
captured value is no error. The wait group can register the
unit: its pending count is from 0 to 2147483646. -/
theorem RunRecover_no_panic (f : Func) (w : World) (hf : f.result = Outcome.returned)
    (h0 : 0 ≤ w.wg.counter) (h1 : w.wg.counter < 2147483647) :
    (RunRecover f w).2.2 = none ∧ (RunRecover f w).2.1 = Outcome.returned ∧
      newEvents w (RunRecover f w).1 = [Event.add 1, Event.body, Event.done] ∧
      errFormat Value.nil = none := by
  have hadd := wgAdd_one w h0 h1
  have h2 : ¬ (w.wg.counter < 0) := by omega
  have h3 : int32 w.wg.counter = w.wg.counter := int32_of_range _ (by omega) (by omega)
  have h4 : int32 (w.wg.counter + 1 + -1) = w.wg.counter := by
    rw [int32_of_range _ (by omega) (by omega)]; omega
  simp [runTask, Go, GoRecover, goRunner, spawnAndRun, goFrame, RunRecover, hadd, h2, h3, h4,
    Frame.run, Frame.steps, Frame.step, runRecoverFrame, Func.call, runDeferred, recover,
    wgDone, Frame.outcome, newEvents, counterActions, countHandlerCalls, stderrWrites, hf, errFormat]

/-- Witness of C5: the call of `TestRunRecover_NoPanic`. -/
theorem RunRecover_no_panic_witness :
    (RunRecover ⟨Outcome.returned⟩ (World.zero "")).2.2 = none ∧
      (RunRecover ⟨Outcome.returned⟩ (World.zero "")).2.1 = Outcome.returned ∧
      newEvents (World.zero "") (RunRecover ⟨Outcome.returned⟩ (World.zero "")).1
        = [Event.add 1, Event.body, Event.done] ∧
      errFormat Value.nil = none :=
  RunRecover_no_panic ⟨Outcome.returned⟩ (World.zero "") rfl (by decide) (by decide)

/-- C6. When the body panics with a non-nil value `r` and an installed handler `H` returns
normally, the goroutine started by `GoRecover` does exactly this, in this order: the body,
one call `H(r)`, `Done()`. When `H` has been called the unit is still pending (the count is
positive, `Wait` is blocked). Nothing is written to the diagnostic stream and the goroutine
ends normally. The wait group can register the
unit: its pending count is from 0 to 2147483646. -/
theorem GoRecover_invokes_handler (f : Func) (w : World) (H : PanicHandler) (r : Value)
    (hf : f.result = Outcome.panicked r) (hr : r ≠ Value.nil)
    (hH : w.wg.PanicHandler = some H) (hret : H r = Outcome.returned)
    (h0 : 0 ≤ w.wg.counter) (h1 : w.wg.counter < 2147483647) :
    newEvents w (runTask Variant.GoRecover f w).world
        = [Event.add 1, Event.spawn, Event.body, Event.handler r, Event.done] ∧
      newEvents w (Frame.steps 2 (goFrame f true) (GoRecover f w).1).2
        = [Event.add 1, Event.spawn, Event.body, Event.handler r] ∧
      0 < (Frame.steps 2 (goFrame f true) (GoRecover f w).1).2.wg.counter ∧
      countHandlerCalls (newEvents w (runTask Variant.GoRecover f w).world) = 1 ∧
      stderrWrites (newEvents w (runTask Variant.GoRecover f w).world) = [] ∧
      (runTask Variant.GoRecover f w).outcome = Outcome.returned := by
  have hadd := wgAdd_one w h0 h1
  have h2 : ¬ (w.wg.counter < 0) := by omega
  have h3 : int32 w.wg.counter = w.wg.counter := int32_of_range _ (by omega) (by omega)
  have h4 : int32 (w.wg.counter + 1 + -1) = w.wg.counter := by
    rw [int32_of_range _ (by omega) (by omega)]; omega
  simp [runTask, Go, GoRecover, goRunner, spawnAndRun, goFrame, RunRecover, hadd, h2, h3, h4,
    Frame.run, Frame.steps, Frame.step, runRecoverFrame, Func.call, runDeferred, recover,
    wgDone, Frame.outcome, newEvents, counterActions, countHandlerCalls, stderrWrites, hf, hr, hH, hret]
  omega

/-- Witness of C6: the handler and the panic of `TestGoRecover_withCustomPanicHandler`. -/
theorem GoRecover_invokes_handler_witness :
    newEvents (World.withHandler (fun _ => Outcome.returned) 0 "")
        (runTask Variant.GoRecover ⟨Outcome.panicked (Value.str "catch this panic")⟩
          (World.withHandler (fun _ => Outcome.returned) 0 "")).world
      = [Event.add 1, Event.spawn, Event.body, Event.handler (Value.str "catch this panic"),
          Event.done] :=
  (GoRecover_invokes_handler ⟨Outcome.panicked (Value.str "catch this panic")⟩
    (World.withHandler (fun _ => Outcome.returned) 0 "") (fun _ => Outcome.returned)
    (Value.str "catch this panic") rfl (by decide) rfl rfl (by decide) (by decide)).1

/-- Counterexample to C7 as stated: with no handler, the body panicking with the string
`boom` and the stack trace `STACK`, the message written is not the announcement, the
rendering, a newline and the stack trace: a newline follows the stack trace. -/
theorem stderr_message_counterexample :
    stderrWrites (newEvents (World.zero "STACK")
        (runTask Variant.GoRecover ⟨Outcome.panicked (Value.str "boom")⟩ (World.zero "STACK")).world)
      ≠ ["Panic recovered in goroutine: " ++ (Value.str "boom").format ++ "\n" ++ "STACK"] ∧
    stderrWrites (newEvents (World.zero "STACK")
        (runTask Variant.GoRecover ⟨Outcome.panicked (Value.str "boom")⟩ (World.zero "STACK")).world)
      = ["Panic recovered in goroutine: boom\nSTACK\n"] := by
  decide

/-- C7, amended. When the body panics with a non-nil value `r` and no handler is installed,
the goroutine started by `GoRecover` writes exactly one message to the diagnostic stream:
`Panic recovered in goroutine: `, the default rendering of `r`, a newline, the stack trace,
and a final newline. The goroutine then ends normally and the pending unit is released. The wait group can register the
unit: its pending count is from 0 to 2147483646. -/
theorem GoRecover_default_diagnostic (f : Func) (w : World) (r : Value)
    (hf : f.result = Outcome.panicked r) (hr : r ≠ Value.nil)
    (hH : w.wg.PanicHandler = none)
    (h0 : 0 ≤ w.wg.counter) (h1 : w.wg.counter < 2147483647) :
    stderrWrites (newEvents w (runTask Variant.GoRecover f w).world)
        = ["Panic recovered in goroutine: " ++ r.format ++ "\n" ++ w.stack ++ "\n"] ∧
      newEvents w (runTask Variant.GoRecover f w).world
        = [Event.add 1, Event.spawn, Event.body,
            Event.stderr ("Panic recovered in goroutine: " ++ r.format ++ "\n" ++ w.stack ++ "\n"),
            Event.done] ∧
      (runTask Variant.GoRecover f w).outcome = Outcome.returned ∧
      (runTask Variant.GoRecover f w).world.wg.counter = w.wg.counter := by
  have hadd := wgAdd_one w h0 h1
  have h2 : ¬ (w.wg.counter < 0) := by omega
  have h3 : int32 w.wg.counter = w.wg.counter := int32_of_range _ (by omega) (by omega)
  have h4 : int32 (w.wg.counter + 1 + -1) = w.wg.counter := by
    rw [int32_of_range _ (by omega) (by omega)]; omega
  simp [runTask, Go, GoRecover, goRunner, spawnAndRun, goFrame, RunRecover, hadd, h2, h3, h4,
    Frame.run, Frame.steps, Frame.step, runRecoverFrame, Func.call, runDeferred, recover,
    wgDone, Frame.outcome, newEvents, counterActions, countHandlerCalls, stderrWrites, hf, hr, hH, Sprintf, Value.format, String.append_assoc]

/-- Witness of C7 amended: the panic of `TestGoRecover_withNoCustomPanicHandler`. -/
theorem GoRecover_default_diagnostic_witness :
    stderrWrites (newEvents (World.zero "STACK")
        (runTask Variant.GoRecover ⟨Outcome.panicked (Value.str "catch this panic in the default manner")⟩
          (World.zero "STACK")).world)
      = ["Panic recovered in goroutine: " ++
          (Value.str "catch this panic in the default manner").format ++ "\n" ++
          (World.zero "STACK").stack ++ "\n"] :=
  (GoRecover_default_diagnostic ⟨Outcome.panicked (Value.str "catch this panic in the default manner")⟩
    (World.zero "STACK") (Value.str "catch this panic in the default manner") rfl (by decide) rfl
    (by decide) (by decide)).1

/-- C8. When the body panics with a non-nil value `r` and the installed handler `H` panics
with `s`, the goroutine started by `GoRecover` does not catch `s`: it ends abnormally with
`s`, after exactly one call `H(r)` and after `Done()` has released the pending unit. The wait group can register the
unit: its pending count is from 0 to 2147483646. -/
theorem GoRecover_handler_panic_propagates (f : Func) (w : World) (H : PanicHandler)
    (r s : Value) (hf : f.result = Outcome.panicked r) (hr : r ≠ Value.nil)
    (hH : w.wg.PanicHandler = some H) (hs : H r = Outcome.panicked s)
    (h0 : 0 ≤ w.wg.counter) (h1 : w.wg.counter < 2147483647) :
    (runTask Variant.GoRecover f w).outcome = Outcome.panicked s ∧
      newEvents w (runTask Variant.GoRecover f w).world
        = [Event.add 1, Event.spawn, Event.body, Event.handler r, Event.done] ∧
      countHandlerCalls (newEvents w (runTask Variant.GoRecover f w).world) = 1 ∧
      (runTask Variant.GoRecover f w).world.wg.counter = w.wg.counter := by
  have hadd := wgAdd_one w h0 h1
  have h2 : ¬ (w.wg.counter < 0) := by omega
  have h3 : int32 w.wg.counter = w.wg.counter := int32_of_range _ (by omega) (by omega)
  have h4 : int32 (w.wg.counter + 1 + -1) = w.wg.counter := by
    rw [int32_of_range _ (by omega) (by omega)]; omega
  simp [runTask, Go, GoRecover, goRunner, spawnAndRun, goFrame, RunRecover, hadd, h2, h3, h4,
    Frame.run, Frame.steps, Frame.step, runRecoverFrame, Func.call, runDeferred, recover,
    wgDone, Frame.outcome, newEvents, counterActions, countHandlerCalls, stderrWrites, hf, hr, hH, hs]

/-- Witness of C8: the handler and the panic of
`TestGoRecover_withCustomPanicHandlerAndNestedPanic`. -/
theorem GoRecover_handler_panic_propagates_witness :
    (runTask Variant.GoRecover ⟨Outcome.panicked (Value.str "catch this panic")⟩
        (World.withHandler (fun _ => Outcome.panicked (Value.str "this is a nested panic")) 0 "")).outcome
      = Outcome.panicked (Value.str "this is a nested panic") :=
  (GoRecover_handler_panic_propagates ⟨Outcome.panicked (Value.str "catch this panic")⟩
    (World.withHandler (fun _ => Outcome.panicked (Value.str "this is a nested panic")) 0 "")
    (fun _ => Outcome.panicked (Value.str "this is a nested panic"))
    (Value.str "catch this panic") (Value.str "this is a nested panic") rfl (by decide) rfl rfl
    (by decide) (by decide)).1

/-- C9. When the body panics with `r`, the goroutine started by `Go` captures nothing,
whatever the handler field holds: it does the body and `Done()` and nothing else (no handler
call, no diagnostic write), it ends abnormally with the original `r`, and the pending unit
has been released by then. The wait group can register the
unit: its pending count is from 0 to 2147483646. -/
theorem Go_does_not_capture (f : Func) (w : World) (r : Value)
    (hf : f.result = Outcome.panicked r)
    (h0 : 0 ≤ w.wg.counter) (h1 : w.wg.counter < 2147483647) :
    (runTask Variant.Go f w).outcome = Outcome.panicked r ∧
      newEvents w (runTask Variant.Go f w).world
        = [Event.add 1, Event.spawn, Event.body, Event.done] ∧
      countHandlerCalls (newEvents w (runTask Variant.Go f w).world) = 0 ∧
      stderrWrites (newEvents w (runTask Variant.Go f w).world) = [] ∧
      (runTask Variant.Go f w).world.wg.counter = w.wg.counter := by
  have hadd := wgAdd_one w h0 h1
  have h2 : ¬ (w.wg.counter < 0) := by omega
  have h3 : int32 w.wg.counter = w.wg.counter := int32_of_range _ (by omega) (by omega)
  have h4 : int32 (w.wg.counter + 1 + -1) = w.wg.counter := by
    rw [int32_of_range _ (by omega) (by omega)]; omega
  simp [runTask, Go, GoRecover, goRunner, spawnAndRun, goFrame, RunRecover, hadd, h2, h3, h4,
    Frame.run, Frame.steps, Frame.step, runRecoverFrame, Func.call, runDeferred, recover,
    wgDone, Frame.outcome, newEvents, counterActions, countHandlerCalls, stderrWrites, hf]

/-- Witness of C9: the panic of `ExampleWaitGroup_Go_withRecover`, handler installed. -/
theorem Go_does_not_capture_witness :
    (runTask Variant.Go ⟨Outcome.panicked (Value.str "testing")⟩
        (World.withHandler (fun _ => Outcome.returned) 0 "")).outcome
      = Outcome.panicked (Value.str "testing") :=
  (Go_does_not_capture ⟨Outcome.panicked (Value.str "testing")⟩
    (World.withHandler (fun _ => Outcome.returned) 0 "") (Value.str "testing") rfl
    (by decide) (by decide)).1

/-- C10. The code at the failing input: the body is `func() { panic(nil) }` on a runtime
that keeps nil panic values. The body ends abnormally, yet `RunRecover` returns no error,
and `GoRecover` neither calls the handler (absent, or installed and returning normally) nor
writes to the diagnostic stream: the panic is swallowed with no effect. On the default
runtime the same body is recovered as a `*runtime.PanicNilError` and `RunRecover` returns
an error. -/
theorem nil_panic_is_swallowed :
    (⟨gopanic true Value.nil⟩ : Func).result ≠ Outcome.returned ∧
    observed (runTask Variant.RunRecover ⟨gopanic true Value.nil⟩ (World.zero ""))
      (newEvents (World.zero "")
        (runTask Variant.RunRecover ⟨gopanic true Value.nil⟩ (World.zero "")).world) = false ∧
    observed (runTask Variant.GoRecover ⟨gopanic true Value.nil⟩ (World.zero ""))
      (newEvents (World.zero "")
        (runTask Variant.GoRecover ⟨gopanic true Value.nil⟩ (World.zero "")).world) = false ∧
    observed (runTask Variant.GoRecover ⟨gopanic true Value.nil⟩
        (World.withHandler (fun _ => Outcome.returned) 0 ""))
      (newEvents (World.withHandler (fun _ => Outcome.returned) 0 "")
        (runTask Variant.GoRecover ⟨gopanic true Value.nil⟩
          (World.withHandler (fun _ => Outcome.returned) 0 "")).world) = false ∧
    observed (runTask Variant.RunRecover ⟨gopanic false Value.nil⟩ (World.zero ""))
      (newEvents (World.zero "")
        (runTask Variant.RunRecover ⟨gopanic false Value.nil⟩ (World.zero "")).world) = true := by
  decide

end Wg
